import Mathlib

/-!
A verification development for the Pinoccio STK500v2-style bootloader
(src/firmware/bootloader/src/main.c).  The definitions below are a shallow
embedding of that C file for the ATmega256RFR2 build target of this board
(the only Pinoccio MCU in the chip tables of the file): machine integers
become Nat with explicit reductions modulo 2^w where the C type wraps,
the polled UART is modeled as the list of bytes that arrive within their
poll windows, and the flash/watchdog registers are modeled as explicit
state plus an event trace.
-/

set_option maxRecDepth 8000

namespace Stk500Boot

/-! ### Build-time constants

`FLASHEND` and `SPM_PAGESIZE` come from the avr-libc headers for the
ATmega256RFR2 (an external collaborator of the core per the spec):
256 KiB of flash, 256-byte pages.  `BOOTSIZE`, `APP_END`, `F_CPU` and
`MAX_TIME_COUNT` are computed exactly as in main.c. -/

def FLASHEND : Nat := 0x3FFFF

def SPM_PAGESIZE : Nat := 256

/-- Bootloader size in words, main.c line 166. -/
def BOOTSIZE : Nat := 4096

/-- Boundary constant, main.c line 168: `FLASHEND - (2*BOOTSIZE) + 1`. -/
def APP_END : Nat := FLASHEND - 2 * BOOTSIZE + 1

def F_CPU : Nat := 16000000

/-- Timeout bound of `recchar_timeout`, main.c line 387: `F_CPU >> 1`. -/
def MAX_TIME_COUNT : Nat := F_CPU >>> 1

/-- Modelled from the spec: the protocol start-marker byte.  The constant
`MESSAGE_START` lives in `command.h`, which the repository snapshot under
src/ does not include; the STK500v2 protocol that the spec and the file
header reference fixes it at 0x1B.  No theorem below depends on the
numeric value, only concrete witness inputs mention it. -/
def MESSAGE_START : Nat := 0x1B

/-! ### The receive state machine (main.c lines 297-307 and 462-496)

The C file defines eight states.  Three of them (`ST_GET_SEQ_NUM`,
`ST_GET_TOKEN`, `ST_GET_CHECK`) are defined but the `switch` in `main`
has no case for them and nothing ever assigns them, so in the embedding
they behave exactly like the default branch of the `switch`. -/

inductive PState
  | start        -- ST_START
  | getSeqNum    -- ST_GET_SEQ_NUM (defined, unreachable)
  | size1        -- ST_MSG_SIZE_1
  | size2        -- ST_MSG_SIZE_2
  | getToken     -- ST_GET_TOKEN (defined, unreachable)
  | getData      -- ST_GET_DATA
  | getCheck     -- ST_GET_CHECK (defined, unreachable)
  | process      -- ST_PROCESS
deriving DecidableEq

/-- The mutable variables of the byte-collection loop: `msgParseState`,
`msgLength` (a 16-bit `unsigned int` in C) and the payload index `ii`. -/
structure PMachine where
  st : PState
  msgLength : Nat
  ii : Nat
deriving DecidableEq

/-- One execution of the `switch (msgParseState)` body of main.c lines
467-495 on the received byte `c`.  In `ST_MSG_SIZE_1` the C computes
`msgLength = c<<8` into a 16-bit unsigned int, hence the reduction modulo
65536; in `ST_MSG_SIZE_2` it ors in the low byte and zeroes `ii`; in
`ST_GET_DATA` the byte is cast to void and `ii` is compared to
`msgLength` without ever being incremented. -/
def pstep (m : PMachine) (c : Nat) : PMachine :=
  match m.st with
  | PState.start =>
      if c = MESSAGE_START then { m with st := PState.size1 } else m
  | PState.size1 =>
      { m with msgLength := (c <<< 8) % 65536, st := PState.size2 }
  | PState.size2 =>
      { m with msgLength := m.msgLength ||| c, st := PState.getData, ii := 0 }
  | PState.getData =>
      if m.ii = m.msgLength then { m with st := PState.process } else m
  | _ => m

/-- Outcome of the byte-collection loop of main.c lines 463-496. -/
structure CollectResult where
  timedOut : Bool
  reachedProcess : Bool
  remaining : List Nat
  consumed : Nat
deriving DecidableEq

/-- The byte-collection loop (main.c lines 463-496).  `input` is the list
of bytes that arrive within their `recchar_timeout` windows; when it is
exhausted the read times out, returns the NULL character 0, the `switch`
still runs on that 0 (the C checks `isTimeout` only in the loop guard),
and the loop exits with the timeout flag set.  When a processed byte
moves the machine to `ST_PROCESS` the loop exits normally with the
unread bytes returned in `remaining`. -/
def collectAux (m : PMachine) (consumed : Nat) : List Nat → CollectResult
  | [] =>
      let m2 := pstep m 0
      { timedOut := true, reachedProcess := decide (m2.st = PState.process),
        remaining := [], consumed := consumed }
  | c :: rest =>
      let m2 := pstep m c
      if m2.st = PState.process then
        { timedOut := false, reachedProcess := true,
          remaining := rest, consumed := consumed + 1 }
      else
        collectAux m2 (consumed + 1) rest

/-- The collection loop as entered from `main`: line 462 sets only
`msgParseState = ST_START`; `msgLength` and `ii` keep whatever value the
previous iteration left (0 on the first pass, from the declarations at
lines 414-415). -/
def collectRun (input : List Nat) : CollectResult :=
  collectAux { st := PState.start, msgLength := 0, ii := 0 } 0 input

/-! ### Hardware effects

Observable actions of `main` on the device: the `boot_*` self-programming
primitives, `boot_spm_busy_wait`, `boot_rww_enable`, a byte written to the
UART by `sendchar`, and the jump through the `app_start` function pointer
(main.c line 407).  The last two constructors exist so that theorems can
state that `main` never produces them: `sendchar` and `app_start` are
defined in the file but have no call site inside `main`. -/

inductive Event
  | pageErase (a : Nat)          -- boot_page_erase(a)
  | spmWait                      -- boot_spm_busy_wait()
  | pageFill (a : Nat) (w : Nat) -- boot_page_fill(a, w)
  | pageWrite (a : Nat)          -- boot_page_write(a)
  | rwwEnable                    -- boot_rww_enable()
  | send (b : Nat)               -- sendchar(b)
  | transfer                     -- app_start()
deriving DecidableEq

/-- The fill do-while of main.c lines 512-518: starting with
`size = SPM_PAGESIZE`, stage the word 0xcfff (an `rjmp .-2` instruction)
at `tempAddress`, advance the 32-bit address by two, decrement `size` by
two, and repeat while `size` is nonzero.  `tempAddress` is an
`address_t = uint32_t` on this MCU (RAMPZ exists), hence the modulus. -/
def fillLoop (tempAddress size : Nat) : List Event :=
  Event.pageFill tempAddress 0xcfff ::
    (if size - 2 = 0 then []
     else fillLoop ((tempAddress + 2) % 2 ^ 32) (size - 2))
termination_by size
decreasing_by omega

/-- The whole flash block of main.c lines 502-523 at cursor `address`:
erase the page, wait, stage a full page of 0xcfff words, commit, wait,
re-enable the RWW section. -/
def pageOpEvents (address : Nat) : List Event :=
  Event.pageErase address :: Event.spmWait ::
    (fillLoop address SPM_PAGESIZE ++
      [Event.pageWrite address, Event.spmWait, Event.rwwEnable])

/-- Cursor advance of main.c lines 526-528: `address += SPM_PAGESIZE;`
then `if (address + SPM_PAGESIZE > APP_END + 1) address = (FLASHEND+1)/2;`.
`address` is a uint32_t, so both sums reduce modulo 2^32. -/
def advance (address : Nat) : Nat :=
  if ((address + SPM_PAGESIZE) % 2 ^ 32 + SPM_PAGESIZE) % 2 ^ 32 > APP_END + 1
  then (FLASHEND + 1) / 2
  else (address + SPM_PAGESIZE) % 2 ^ 32

/-! ### The control-flow machine for `main` (lines 455-533)

Program points of the loop nest:

  for(;;) {                                          -- forTop
    while (!isLeave && !isTimeout) {                 -- outerCheck
      msgParseState = ST_START;                      -- startCollect
      while (msgParseState != ST_PROCESS
             && !isLeave && !isTimeout) {            -- collectCheck
        c = recchar_timeout(&isTimeout); switch ...  -- readByte
      }
      { erase/fill/write block; advance cursor }     -- processBlock
    }
  }

`isLeave` is declared at line 417, initialized to 0 and never written
again; it is carried so the guards read exactly like the C. -/

inductive Loc
  | forTop | outerCheck | startCollect | collectCheck | readByte | processBlock
deriving DecidableEq

structure MState where
  loc : Loc
  address : Nat
  pm : PMachine
  isTimeout : Bool
  isLeave : Bool
  input : List Nat
deriving DecidableEq

/-- One step of `main`: the statement at the current program point,
returning the next state and the hardware events the statement performs. -/
def step (s : MState) : MState × List Event :=
  match s.loc with
  | Loc.forTop => ({ s with loc := Loc.outerCheck }, [])
  | Loc.outerCheck =>
      if s.isLeave = false ∧ s.isTimeout = false then
        ({ s with loc := Loc.startCollect }, [])
      else
        ({ s with loc := Loc.forTop }, [])
  | Loc.startCollect =>
      ({ s with pm := { s.pm with st := PState.start }, loc := Loc.collectCheck }, [])
  | Loc.collectCheck =>
      if s.pm.st ≠ PState.process ∧ s.isLeave = false ∧ s.isTimeout = false then
        ({ s with loc := Loc.readByte }, [])
      else
        ({ s with loc := Loc.processBlock }, [])
  | Loc.readByte =>
      match s.input with
      | [] =>
          ({ s with isTimeout := true, pm := pstep s.pm 0, loc := Loc.collectCheck }, [])
      | b :: rest =>
          ({ s with input := rest, pm := pstep s.pm b, loc := Loc.collectCheck }, [])
  | Loc.processBlock =>
      ({ s with pm := { s.pm with msgLength := 2 },
                address := advance s.address,
                loc := Loc.outerCheck },
       pageOpEvents s.address)

/-- Run `n` steps of `main`, collecting the event trace. -/
def run (s : MState) : Nat → MState × List Event
  | 0 => (s, [])
  | n + 1 =>
      let p := step s
      let q := run p.1 n
      (q.1, p.2 ++ q.2)

/-- The state of `main` when the loop nest is first entered: the cursor
starts at the midpoint `(FLASHEND + 1) / 2` (line 412), both flags are
clear (lines 417-418), `msgLength` and `ii` are the zero initializers of
lines 414-415, and `input` is the byte stream the host will deliver. -/
def initMState (input : List Nat) : MState :=
  { loc := Loc.forTop, address := (FLASHEND + 1) / 2,
    pm := { st := PState.start, msgLength := 0, ii := 0 },
    isTimeout := false, isLeave := false, input := input }

/-- The cursor invariant: the page beginning at the cursor ends no later
than `APP_END + 1`. -/
def addrInv (a : Nat) : Prop := a + SPM_PAGESIZE ≤ APP_END + 1

/-- Bytes written to the UART in an event list. -/
def isSendEv : Event → Bool
  | Event.send _ => true
  | _ => false

/-- Control transfers to the application in an event list. -/
def isTransferEv : Event → Bool
  | Event.transfer => true
  | _ => false

/-! ### The two byte-read primitives (main.c lines 378-385 and 389-404)

Both poll the UART receive-complete flag.  `avail i` tells whether a byte
has arrived by the i-th poll of the busy-wait and `data i` is the data
register content then.  `rtLoop` is `recchar_timeout`: it increments a
counter on every failed poll and gives up with the NULL character once
the counter passes `MAX_TIME_COUNT`.  `recharPolls` is the plain
`recchar` busy-wait observed for `fuel` polls: it has no counter and no
exit path without data. -/

def rtLoop (avail : Nat → Bool) (data : Nat → Nat) (i count : Nat) :
    Option Nat × Nat :=
  if avail i then (some (data i), count)
  else if count + 1 > MAX_TIME_COUNT then (none, count + 1)
  else rtLoop avail data (i + 1) (count + 1)
termination_by MAX_TIME_COUNT + 1 - count
decreasing_by omega

def recharPolls (avail : Nat → Bool) (data : Nat → Nat) : Nat → Nat → Option Nat
  | _, 0 => none
  | i, fuel + 1 =>
      if avail i then some (data i) else recharPolls avail data (i + 1) fuel

/-! ### Startup (main.c lines 428-440)

The straight-line statements executed before the UART is configured:

    GPIOR0 = MCUSR;                 -- snapshot of the reset-cause register
    cli; wdr;
    MCUSR = 0;
    WDTCSR |= (1<<WDCE) | (1<<WDE); -- timed-change unlock
    WDTCSR = 0;                     -- watchdog fully off
    sei;

`GPIOR0` is a general-purpose register the application can read after
control transfer.  `WDCE` is bit 4 and `WDE` bit 3 of `WDTCSR` on this
MCU family. -/

structure HwState where
  mcusr : Nat
  gpior0 : Nat
  wdtcsr : Nat
deriving DecidableEq

def WDCE : Nat := 4

def WDE : Nat := 3

def captureResetCause (s : HwState) : HwState := { s with gpior0 := s.mcusr }

def clearMCUSR (s : HwState) : HwState := { s with mcusr := 0 }

def wdtUnlock (s : HwState) : HwState :=
  { s with wdtcsr := s.wdtcsr ||| ((1 <<< WDCE) ||| (1 <<< WDE)) }

def wdtClear (s : HwState) : HwState := { s with wdtcsr := 0 }

/-- The startup sequence as a state transformer, composed in program
order. -/
def startup (s : HwState) : HwState :=
  wdtClear (wdtUnlock (clearMCUSR (captureResetCause s)))

/-- The startup statements in program order, for ordering claims. -/
inductive StartupEv
  | captureReset | irqDisable | wdReset | mcusrCleared | wdtUnlocked
  | wdtCleared | irqEnable
deriving DecidableEq

def startupTrace : List StartupEv :=
  [StartupEv.captureReset, StartupEv.irqDisable, StartupEv.wdReset,
   StartupEv.mcusrCleared, StartupEv.wdtUnlocked, StartupEv.wdtCleared,
   StartupEv.irqEnable]

/-! ### The cursor sequence (main.c lines 412 and 526-528)

`cursorN n` is the Device Cursor before the (n+1)-th page operation:
the midpoint of flash at startup, then one `advance` per operation. -/

def cursorN : Nat → Nat
  | 0 => (FLASHEND + 1) / 2
  | n + 1 => advance (cursorN n)

/-! ### Spec-side definitions, for comparison against the code

These two definitions follow the words of the specification, not the C
source; they exist only to be compared with the embedded code. -/

/-- Running exclusive-or of a byte list, zero-seeded. -/
def xorAll (bs : List Nat) : Nat := bs.foldl (fun a b => a ^^^ b) 0

/-- The validity predicate of claim C2, per the spec: a start marker,
then sequence number, two length bytes, command token and a payload of
the declared length, with a trailing byte equal to the exclusive-or of
every preceding frame byte. -/
def specFrameValid (bs : List Nat) : Bool :=
  match bs with
  | mark :: _seq :: hi :: lo :: _tok :: rest =>
      decide (mark = MESSAGE_START) && decide (rest.length = hi * 256 + lo + 1)
        && decide (bs.getLast? = some (xorAll bs.dropLast))
  | _ => false

/-- A frame that is valid per the spec (claim C2): marker, sequence 0x05,
length 1, token 0x01, payload byte 0x99, and the correct exclusive-or
checksum. -/
def c2frame : List Nat :=
  [MESSAGE_START, 0x05, 0x00, 0x01, 0x01, 0x99,
   MESSAGE_START ^^^ 0x05 ^^^ 0x00 ^^^ 0x01 ^^^ 0x01 ^^^ 0x99]

/-- The cursor-advance rule exactly as claim C5 words it: the new cursor
is the previous cursor plus one page width, except that it wraps to the
midpoint starting address when that sum would exceed the boundary
constant. -/
def spec_cursor_advance (prev : Nat) : Nat :=
  if prev + SPM_PAGESIZE > APP_END then (FLASHEND + 1) / 2
  else prev + SPM_PAGESIZE

/-! ### Small sanity examples (concrete runs of the collection loop) -/

example : (collectRun [MESSAGE_START, 0, 0, 0xAB]).reachedProcess = true := by decide

example : (collectRun [MESSAGE_START, 0, 1, 0xAB]).timedOut = true := by decide

example : (collectRun []).timedOut = true := by decide

/-! ### Helper lemmas about the fill loop and the page-operation block -/

lemma fillLoop_mem : ∀ (size a : Nat) (e : Event),
    e ∈ fillLoop a size → ∃ x, e = Event.pageFill x 0xcfff := by
  intro size
  induction size using Nat.strong_induction_on with
  | _ size ih =>
    intro a e he
    rw [fillLoop, List.mem_cons] at he
    rcases he with h | h
    · exact ⟨a, h⟩
    · by_cases h2 : size - 2 = 0
      · simp [h2] at h
      · rw [if_neg h2] at h
        exact ih (size - 2) (by omega) _ e h

lemma fillLoop_range : ∀ (k a : Nat), a + 2 * k + 2 ≤ 2 ^ 32 →
    fillLoop a (2 * k + 2) =
      (List.range (k + 1)).map (fun i => Event.pageFill (a + 2 * i) 0xcfff) := by
  intro k
  induction k with
  | zero =>
      intro a _
      rw [fillLoop]
      have h1 : List.range 1 = [0] := rfl
      rw [h1]
      simp
  | succ k ih =>
      intro a ha
      rw [fillLoop]
      have h2 : 2 * (k + 1) + 2 - 2 = 2 * k + 2 := by omega
      rw [h2]
      have hne : ¬ (2 * k + 2 = 0) := by omega
      rw [if_neg hne]
      have hmod : (a + 2) % 2 ^ 32 = a + 2 := Nat.mod_eq_of_lt (by omega)
      rw [hmod, ih (a + 2) (by omega)]
      conv_rhs => rw [List.range_succ_eq_map]
      simp only [List.map_cons, List.map_map]
      congr 1
      apply List.map_congr_left
      intro x _
      simp only [Function.comp_apply]
      congr 1
      omega

lemma pageOp_mem {e : Event} {a : Nat} (h : e ∈ pageOpEvents a) :
    e = Event.pageErase a ∨ e = Event.spmWait ∨
      (∃ x, e = Event.pageFill x 0xcfff) ∨
      e = Event.pageWrite a ∨ e = Event.rwwEnable := by
  simp only [pageOpEvents, List.mem_cons, List.mem_append] at h
  rcases h with h | h | h | h
  · exact Or.inl h
  · exact Or.inr (Or.inl h)
  · exact Or.inr (Or.inr (Or.inl (fillLoop_mem _ _ _ h)))
  · simp at h
    rcases h with h | h | h
    · exact Or.inr (Or.inr (Or.inr (Or.inl h)))
    · exact Or.inr (Or.inl h)
    · exact Or.inr (Or.inr (Or.inr (Or.inr h)))

lemma pageOp_erase_mem {a x : Nat} (h : Event.pageErase x ∈ pageOpEvents a) :
    x = a := by
  rcases pageOp_mem h with h | h | ⟨y, h⟩ | h | h <;> simp_all

/-! ### Helper lemmas about `step` and `run` -/

lemma step_events (s : MState) :
    (step s).2 = [] ∨
      (s.loc = Loc.processBlock ∧ (step s).2 = pageOpEvents s.address) := by
  rcases s with ⟨loc, addr, pm, t, l, inp⟩
  cases loc
  · exact Or.inl rfl
  · simp only [step]
    split <;> exact Or.inl rfl
  · exact Or.inl rfl
  · simp only [step]
    split <;> exact Or.inl rfl
  · cases inp <;> exact Or.inl rfl
  · exact Or.inr ⟨rfl, rfl⟩

lemma step_address (s : MState) :
    (step s).1.address = s.address ∨ (step s).1.address = advance s.address := by
  rcases s with ⟨loc, addr, pm, t, l, inp⟩
  cases loc
  · exact Or.inl rfl
  · simp only [step]
    split <;> exact Or.inl rfl
  · exact Or.inl rfl
  · simp only [step]
    split <;> exact Or.inl rfl
  · cases inp <;> exact Or.inl rfl
  · exact Or.inr rfl

lemma step_isLeave (s : MState) : (step s).1.isLeave = s.isLeave := by
  rcases s with ⟨loc, addr, pm, t, l, inp⟩
  cases loc
  · rfl
  · simp only [step]
    split <;> rfl
  · rfl
  · simp only [step]
    split <;> rfl
  · cases inp <;> rfl
  · rfl

/-- On cursor values whose page still fits under the boundary (true of
every reachable cursor), both 32-bit reductions in `advance` are
no-ops, so `advance` is literally increment-then-maybe-wrap. -/
lemma advance_eq {a : Nat} (h : a + 2 * SPM_PAGESIZE < 2 ^ 32) :
    advance a = if a + SPM_PAGESIZE + SPM_PAGESIZE > APP_END + 1
                then (FLASHEND + 1) / 2 else a + SPM_PAGESIZE := by
  unfold advance
  have hp : SPM_PAGESIZE = 256 := rfl
  rw [hp] at h ⊢
  have h1 : (a + 256) % 2 ^ 32 = a + 256 := Nat.mod_eq_of_lt (by omega)
  rw [h1]
  have h2 : (a + 256 + 256) % 2 ^ 32 = a + 256 + 256 := Nat.mod_eq_of_lt (by omega)
  rw [h2]

lemma advance_addrInv {a : Nat} (h : addrInv a) : addrInv (advance a) := by
  unfold addrInv at h ⊢
  have hb : APP_END = 0x3E000 := rfl
  have hp : SPM_PAGESIZE = 256 := rfl
  rw [hb, hp] at h ⊢
  rw [advance_eq (by rw [hp]; omega : a + 2 * SPM_PAGESIZE < 2 ^ 32)]
  rw [hb, hp]
  have hm : (FLASHEND + 1) / 2 = 0x20000 := rfl
  rw [hm]
  split
  · omega
  · omega

lemma step_addrInv {s : MState} (h : addrInv s.address) :
    addrInv (step s).1.address := by
  rcases step_address s with he | he
  · rw [he]; exact h
  · rw [he]; exact advance_addrInv h

lemma run_addrInv : ∀ (n : Nat) (s : MState), addrInv s.address →
    addrInv ((run s n).1.address) := by
  intro n
  induction n with
  | zero => intro s h; exact h
  | succ n ih =>
      intro s h
      exact ih (step s).1 (step_addrInv h)

lemma run_events_append (s : MState) (n : Nat) :
    (run s (n + 1)).2 = (step s).2 ++ (run (step s).1 n).2 := rfl

lemma run_succ (s : MState) (n : Nat) :
    run s (n + 1) = ((run (step s).1 n).1, (step s).2 ++ (run (step s).1 n).2) := rfl

lemma run_erase_bound : ∀ (n : Nat) (s : MState), addrInv s.address →
    ∀ a : Nat, Event.pageErase a ∈ (run s n).2 → addrInv a := by
  intro n
  induction n with
  | zero => intro s _ a ha; simp [run] at ha
  | succ n ih =>
      intro s hs a ha
      rw [run_events_append, List.mem_append] at ha
      rcases ha with ha | ha
      · rcases step_events s with he | ⟨_, he⟩
        · rw [he] at ha; simp at ha
        · rw [he] at ha
          rw [pageOp_erase_mem ha]
          exact hs
      · exact ih (step s).1 (step_addrInv hs) a ha

lemma pageOp_no_send (a : Nat) : (pageOpEvents a).filter isSendEv = [] := by
  rw [List.filter_eq_nil_iff]
  intro e he
  rcases pageOp_mem he with h | h | ⟨x, h⟩ | h | h <;> simp [h, isSendEv]

lemma pageOp_no_transfer (a : Nat) : (pageOpEvents a).filter isTransferEv = [] := by
  rw [List.filter_eq_nil_iff]
  intro e he
  rcases pageOp_mem he with h | h | ⟨x, h⟩ | h | h <;> simp [h, isTransferEv]

lemma step_filter (p : Event → Bool) (hp : ∀ a, (pageOpEvents a).filter p = [])
    (s : MState) : ((step s).2).filter p = [] := by
  rcases step_events s with he | ⟨_, he⟩
  · rw [he]; rfl
  · rw [he]; exact hp s.address

lemma run_filter (p : Event → Bool) (hp : ∀ a, (pageOpEvents a).filter p = []) :
    ∀ (n : Nat) (s : MState), ((run s n).2).filter p = [] := by
  intro n
  induction n with
  | zero => intro s; rfl
  | succ n ih =>
      intro s
      rw [run_events_append, List.filter_append, step_filter p hp s, ih (step s).1]
      rfl

/-- Once the timeout flag is set and control is back at the outer loop
nest, `main` bounces between the `for(;;)` head and the inner `while`
guard forever: no event is ever emitted again and the flags never change. -/
lemma timeout_spin : ∀ (n : Nat) (s : MState), s.isTimeout = true →
    (s.loc = Loc.outerCheck ∨ s.loc = Loc.forTop) →
    (run s n).2 = [] ∧
      ((run s n).1.loc = Loc.outerCheck ∨ (run s n).1.loc = Loc.forTop) ∧
      (run s n).1.isTimeout = true := by
  intro n
  induction n with
  | zero => intro s ht hl; exact ⟨rfl, hl, ht⟩
  | succ n ih =>
      intro s ht hl
      rcases s with ⟨loc, addr, pm, t, l, inp⟩
      simp only at ht
      subst ht
      rcases hl with hl | hl <;> simp only at hl <;> subst hl
      · have hstep : step ⟨Loc.outerCheck, addr, pm, true, l, inp⟩
            = (⟨Loc.forTop, addr, pm, true, l, inp⟩, []) := by
          simp [step]
        rw [run_succ, hstep]
        simpa using ih ⟨Loc.forTop, addr, pm, true, l, inp⟩ rfl (Or.inr rfl)
      · have hstep : step ⟨Loc.forTop, addr, pm, true, l, inp⟩
            = (⟨Loc.outerCheck, addr, pm, true, l, inp⟩, []) := by
          simp [step]
        rw [run_succ, hstep]
        simpa using ih ⟨Loc.outerCheck, addr, pm, true, l, inp⟩ rfl (Or.inl rfl)

/-! ### Helper lemmas about the byte-collection loop -/

lemma pstep_getData_stuck {m : PMachine} (h1 : m.st = PState.getData)
    (h2 : m.ii ≠ m.msgLength) (c : Nat) : pstep m c = m := by
  unfold pstep
  rw [h1]
  simp [h2]

lemma collect_stuck : ∀ (rest : List Nat) (m : PMachine) (k : Nat),
    m.st = PState.getData → m.ii ≠ m.msgLength →
    collectAux m k rest =
      { timedOut := true, reachedProcess := false, remaining := [],
        consumed := k + rest.length } := by
  intro rest
  induction rest with
  | nil =>
      intro m k h1 h2
      simp [collectAux, pstep_getData_stuck h1 h2, h1]
  | cons c rest ih =>
      intro m k h1 h2
      simp only [collectAux, pstep_getData_stuck h1 h2]
      rw [if_neg (by rw [h1]; simp : ¬ (m.st = PState.process))]
      rw [ih m (k + 1) h1 h2]
      simp [List.length_cons]
      omega

/-- With a nonzero declared length in the two size bytes, the collection
loop can only end by timeout: `ii` stays 0 forever, so `ST_PROCESS` is
unreachable whatever bytes follow. -/
lemma collect_nonzero_len (len0 ii0 hi lo : Nat) (rest : List Nat)
    (h : ((hi <<< 8) % 65536) ||| lo ≠ 0) :
    collectAux { st := PState.start, msgLength := len0, ii := ii0 } 0
        (MESSAGE_START :: hi :: lo :: rest)
      = { timedOut := true, reachedProcess := false, remaining := [],
          consumed := 3 + rest.length } := by
  simp [collectAux, pstep]
  rw [collect_stuck rest _ 3 rfl (by simpa using fun hh => h hh.symm)]

/-- With a declared length of zero, the byte after the two size bytes is
consumed (and ignored) and the loop exits to processing: four bytes of
the stream are consumed in total. -/
lemma collect_zero_len (len0 ii0 b : Nat) (rest : List Nat) :
    collectAux { st := PState.start, msgLength := len0, ii := ii0 } 0
        (MESSAGE_START :: 0 :: 0 :: b :: rest)
      = { timedOut := false, reachedProcess := true, remaining := rest,
          consumed := 4 } := by
  simp [collectAux, pstep]

lemma rtLoop_count_le : ∀ (fuel count : Nat), MAX_TIME_COUNT + 1 - count = fuel →
    ∀ (avail : Nat → Bool) (data : Nat → Nat) (i : Nat), count ≤ MAX_TIME_COUNT →
    (rtLoop avail data i count).2 ≤ MAX_TIME_COUNT + 1 := by
  intro fuel
  induction fuel with
  | zero => intro count hf _ _ _ hc; omega
  | succ fuel ih =>
      intro count hf avail data i hc
      rw [rtLoop]
      split
      · simpa using Nat.le_trans hc (Nat.le_succ _)
      · split
        · simp
          omega
        · exact ih (count + 1) (by omega) avail data (i + 1) (by omega)

lemma rtLoop_nodata : ∀ (fuel count : Nat), MAX_TIME_COUNT + 1 - count = fuel →
    count ≤ MAX_TIME_COUNT → ∀ (data : Nat → Nat) (i : Nat),
    rtLoop (fun _ => false) data i count = (none, MAX_TIME_COUNT + 1) := by
  intro fuel
  induction fuel with
  | zero => intro count hf hc; omega
  | succ fuel ih =>
      intro count hf hc data i
      rw [rtLoop]
      simp only [Bool.false_eq_true, if_false]
      split
      · have : count = MAX_TIME_COUNT := by omega
        rw [this]
      · exact ih (count + 1) (by omega) (by omega) data (i + 1)

lemma recharPolls_nodata : ∀ (fuel i : Nat) (data : Nat → Nat),
    recharPolls (fun _ => false) data i fuel = none := by
  intro fuel
  induction fuel with
  | zero => intro i data; rfl
  | succ fuel ih =>
      intro i data
      simp only [recharPolls, Bool.false_eq_true, if_false]
      exact ih (i + 1) data

lemma cursorN_affine : ∀ n : Nat, n ≤ 479 → cursorN n = 0x20000 + 256 * n := by
  intro n
  induction n with
  | zero => intro _; rfl
  | succ n ih =>
      intro hn
      have hn2 : n ≤ 478 := by omega
      rw [cursorN, ih (by omega)]
      have hp : SPM_PAGESIZE = 256 := rfl
      have hb : APP_END = 0x3E000 := rfl
      rw [advance_eq (by rw [hp]; omega : 0x20000 + 256 * n + 2 * SPM_PAGESIZE < 2 ^ 32)]
      rw [hp, hb]
      rw [if_neg (by omega : ¬ (0x20000 + 256 * n + 256 + 256 > 0x3E000 + 1))]
      omega

/-! ### Claim theorems -/

/-- C1: In every iteration of the main loop, when the byte-collection
phase ends (its guard fails because `ST_PROCESS` was reached or a flag is
set), control falls into the page-operation block; that block emits a
page erase at the Device Cursor followed by staging the fixed word
0xcfff across the whole page and committing it, and the emitted events
are a function of the cursor alone — identical for any received bytes —
so the program never dispatches on a parsed command token. -/
theorem unconditional_page_wipe :
    (∀ s : MState, s.loc = Loc.collectCheck →
       (s.pm.st = PState.process ∨ s.isLeave = true ∨ s.isTimeout = true) →
       (step s).1.loc = Loc.processBlock)
    ∧ (∀ s : MState, s.loc = Loc.processBlock →
        s.address + SPM_PAGESIZE ≤ 2 ^ 32 →
        (step s).2 =
          Event.pageErase s.address :: Event.spmWait ::
            (((List.range (SPM_PAGESIZE / 2)).map
                (fun i => Event.pageFill (s.address + 2 * i) 0xcfff))
              ++ [Event.pageWrite s.address, Event.spmWait, Event.rwwEnable]))
    ∧ (∀ s t : MState, s.loc = Loc.processBlock → t.loc = Loc.processBlock →
        s.address = t.address → (step s).2 = (step t).2) := by
  refine ⟨?_, ?_, ?_⟩
  · intro s h1 h2
    rcases s with ⟨loc, addr, pm, tk, l, inp⟩
    simp only at h1
    subst h1
    rcases h2 with h | h | h <;> simp only at h <;> simp [step, h]
  · intro s h1 hb
    rcases s with ⟨loc, addr, pm, tk, l, inp⟩
    simp only at h1 hb
    subst h1
    have hstep :
        (step ⟨Loc.processBlock, addr, pm, tk, l, inp⟩).2 = pageOpEvents addr := rfl
    rw [hstep]
    unfold pageOpEvents
    have h256 : SPM_PAGESIZE = 2 * 127 + 2 := rfl
    rw [h256, fillLoop_range 127 addr (by rw [h256] at hb; omega)]
  · intro s t h1 h2 he
    rcases s with ⟨loc, addr, pm, tk, l, inp⟩
    rcases t with ⟨loc2, addr2, pm2, tk2, l2, inp2⟩
    simp only at h1 h2 he
    subst h1
    subst h2
    subst he
    rfl

theorem unconditional_page_wipe_w :
    (step { loc := Loc.collectCheck, address := 0x20000,
            pm := { st := PState.process, msgLength := 0, ii := 0 },
            isTimeout := false, isLeave := false, input := [] }).1.loc
        = Loc.processBlock
    ∧ (step { loc := Loc.processBlock, address := 0x20000,
              pm := { st := PState.process, msgLength := 2, ii := 0 },
              isTimeout := true, isLeave := false, input := [] }).2
        = Event.pageErase 0x20000 :: Event.spmWait ::
            (((List.range (SPM_PAGESIZE / 2)).map
                (fun i => Event.pageFill (0x20000 + 2 * i) 0xcfff))
              ++ [Event.pageWrite 0x20000, Event.spmWait, Event.rwwEnable]) :=
  ⟨unconditional_page_wipe.1 _ rfl (Or.inl rfl),
   unconditional_page_wipe.2.1 _ rfl (by decide)⟩

/-- C2: The claim says a frame reaches the accepted state iff marker,
sequence, length, token, payload and exclusive-or checksum are all in
order.  The code disagrees in both directions: `c2frame` is valid per
the spec yet the collection loop never accepts it (its sequence byte is
consumed as the high length byte, so the loop waits forever and times
out), while the four-byte stream marker-0-0-junk, which has no token, no
checksum and no validity, is accepted. -/
theorem valid_frame_not_accepted :
    specFrameValid c2frame = true
    ∧ (collectRun c2frame).reachedProcess = false
    ∧ (collectRun c2frame).timedOut = true
    ∧ specFrameValid [MESSAGE_START, 0, 0, 0x42] = false
    ∧ (collectRun [MESSAGE_START, 0, 0, 0x42]).reachedProcess = true := by
  decide

/-- C3: The claim says that on timeout the system jumps to the
application entry exactly once.  In the code `app_start` has no call
site: the event trace of any run contains no control transfer at all,
and once the timeout flag is set with control back at the loop nest the
program bounces between the `for(;;)` head and the inner guard forever,
emitting nothing.  (No response is sent either, but no transfer ever
happens.) -/
theorem timeout_never_transfers :
    (∀ (s : MState) (n : Nat), ((run s n).2).filter isTransferEv = [])
    ∧ (∀ (s : MState) (n : Nat), s.isTimeout = true → s.loc = Loc.outerCheck →
        (run s n).2 = [] ∧ (run s n).1.isTimeout = true ∧
          ((run s n).1.loc = Loc.outerCheck ∨ (run s n).1.loc = Loc.forTop)) := by
  constructor
  · intro s n
    exact run_filter isTransferEv pageOp_no_transfer n s
  · intro s n ht hl
    obtain ⟨h1, h2, h3⟩ := timeout_spin n s ht (Or.inl hl)
    exact ⟨h1, h3, h2⟩

theorem timeout_never_transfers_w :
    ((run { loc := Loc.outerCheck, address := 0x20000,
            pm := { st := PState.start, msgLength := 0, ii := 0 },
            isTimeout := true, isLeave := false, input := [] } 5).2) = []
    ∧ ((run { loc := Loc.forTop, address := 0x20000,
              pm := { st := PState.start, msgLength := 0, ii := 0 },
              isTimeout := false, isLeave := false, input := [] } 9).2).filter
          isTransferEv = [] :=
  ⟨(timeout_never_transfers.2 _ 5 rfl rfl).1, timeout_never_transfers.1 _ 9⟩

/-- C4: The claim says a write request targeting an address at or above
the boundary constant is refused with no erase.  The code has no refusal
path at all: the erase/fill/commit block runs unconditionally on
whatever the cursor holds, with no comparison against `APP_END`.
Handed the boundary address itself, the block still begins with a page
erase there. -/
theorem boundary_erase_not_refused :
    Event.pageErase APP_END ∈
      (step { loc := Loc.processBlock, address := APP_END,
              pm := { st := PState.process, msgLength := 0, ii := 0 },
              isTimeout := false, isLeave := false, input := [] }).2 := by
  show Event.pageErase APP_END ∈ pageOpEvents APP_END
  unfold pageOpEvents
  exact List.mem_cons_self _ _

/-- C5 counterexample: after the page write at cursor 0x3DF00 (reached
after 479 operations from the midpoint), the code wraps the cursor to
the midpoint 0x20000, while the claim rule — wrap only when the
previous cursor plus one page width would exceed the boundary constant
— keeps it at 0x3E000 (0x3DF00 + 256 does not exceed 0x3E000). -/
theorem cursor_wrap_cex :
    cursorN 479 = 0x3DF00 ∧ cursorN 480 = 0x20000
    ∧ spec_cursor_advance 0x3DF00 = 0x3E000
    ∧ cursorN 480 ≠ spec_cursor_advance (cursorN 479) := by
  have h479 : cursorN 479 = 0x3DF00 := by
    rw [cursorN_affine 479 (by omega)]
  have hstep : cursorN 480 = advance (cursorN 479) := rfl
  have h480 : cursorN 480 = 0x20000 := by
    rw [hstep, h479]
    rw [advance_eq (by decide : (0x3DF00 : Nat) + 2 * SPM_PAGESIZE < 2 ^ 32)]
    decide
  refine ⟨h479, h480, by decide, ?_⟩
  rw [h479, h480]
  decide

/-- C5 (amended): after every page operation the Device Cursor is
`advance` of the previous cursor: the previous cursor plus one page
width, except that it wraps to the midpoint starting address when the
advanced cursor plus one further page width would exceed the boundary
constant plus one. -/
theorem cursor_advance_amended :
    (∀ s : MState, s.loc = Loc.processBlock →
       (step s).1.address = advance s.address)
    ∧ (∀ prev : Nat, prev + 2 * SPM_PAGESIZE < 2 ^ 32 →
        advance prev =
          if prev + SPM_PAGESIZE + SPM_PAGESIZE > APP_END + 1
          then (FLASHEND + 1) / 2 else prev + SPM_PAGESIZE) := by
  constructor
  · intro s h
    rcases s with ⟨loc, addr, pm, tk, l, inp⟩
    simp only at h
    subst h
    rfl
  · intro prev h
    exact advance_eq h

theorem cursor_advance_amended_w :
    (step { loc := Loc.processBlock, address := 0x3DF00,
            pm := { st := PState.process, msgLength := 0, ii := 0 },
            isTimeout := true, isLeave := false, input := [] }).1.address
        = advance 0x3DF00
    ∧ advance 0x3DF00 =
        (if 0x3DF00 + SPM_PAGESIZE + SPM_PAGESIZE > APP_END + 1
         then (FLASHEND + 1) / 2 else 0x3DF00 + SPM_PAGESIZE) :=
  ⟨cursor_advance_amended.1 _ rfl, cursor_advance_amended.2 0x3DF00 (by decide)⟩

/-- C6: The claim says every accepted request gets a response frame
echoing its sequence number.  The code sends nothing, ever: no step of
`main` emits a UART byte, so no run of any length from any state —
including one that accepts a frame — produces a response at all. -/
theorem no_response_bytes :
    ∀ (s : MState) (n : Nat), ((run s n).2).filter isSendEv = [] := by
  intro s n
  exact run_filter isSendEv pageOp_no_send n s

/-- C7 counterexample: the claim says the very first byte of a frame is
awaited with the single unbounded wait.  In the code the read at
`ST_START` is the same bounded `recchar_timeout` as every other read:
with no byte arriving it returns with the timeout flag set (first
conjunct), because `recchar_timeout` gives up once its counter passes
`MAX_TIME_COUNT` (second conjunct); the genuinely unbounded `recchar`
busy-wait — still waiting after a million polls with no data (third
conjunct) — is never called by `main`. -/
theorem first_byte_wait_bounded_cex :
    (step { loc := Loc.readByte, address := 0x20000,
            pm := { st := PState.start, msgLength := 0, ii := 0 },
            isTimeout := false, isLeave := false, input := [] }).1.isTimeout = true
    ∧ rtLoop (fun _ => false) (fun _ => 0) 0 0 = (none, MAX_TIME_COUNT + 1)
    ∧ recharPolls (fun _ => false) (fun _ => 0) 0 1000000 = none := by
  refine ⟨rfl, ?_, ?_⟩
  · exact rtLoop_nodata (MAX_TIME_COUNT + 1) 0 (by omega) (by omega) _ 0
  · exact recharPolls_nodata 1000000 0 _

/-- C7 (amended): every blocking byte read during frame assembly,
including the very first byte of a frame, is the bounded
`recchar_timeout`: its poll counter never exceeds `MAX_TIME_COUNT + 1`,
and each `readByte` step of `main` returns to the loop guard having
either consumed one byte or set the timeout flag. -/
theorem every_read_bounded :
    (∀ (avail : Nat → Bool) (data : Nat → Nat) (i count : Nat),
       count ≤ MAX_TIME_COUNT →
       (rtLoop avail data i count).2 ≤ MAX_TIME_COUNT + 1)
    ∧ (∀ s : MState, s.loc = Loc.readByte →
        (step s).1.loc = Loc.collectCheck ∧
          ((step s).1.isTimeout = true ∨
            (step s).1.input.length + 1 = s.input.length)) := by
  constructor
  · intro avail data i count hc
    exact rtLoop_count_le (MAX_TIME_COUNT + 1 - count) count rfl avail data i hc
  · intro s h
    rcases s with ⟨loc, addr, pm, tk, l, inp⟩
    simp only at h
    subst h
    cases inp with
    | nil => exact ⟨rfl, Or.inl rfl⟩
    | cons b rest => exact ⟨rfl, Or.inr rfl⟩

theorem every_read_bounded_w :
    (rtLoop (fun _ => true) (fun _ => 0x1B) 0 0).2 ≤ MAX_TIME_COUNT + 1
    ∧ (step { loc := Loc.readByte, address := 0x20000,
              pm := { st := PState.start, msgLength := 0, ii := 0 },
              isTimeout := false, isLeave := false,
              input := [0x1B] }).1.loc = Loc.collectCheck :=
  ⟨every_read_bounded.1 _ _ 0 0 (by omega), (every_read_bounded.2 _ rfl).1⟩

/-- C8: at startup the reset-cause register MCUSR is snapshotted into
GPIOR0 — readable by the application later — before anything else
touches MCUSR or the watchdog register, and then the watchdog is
unconditionally disabled and cleared: after the straight-line startup
sequence GPIOR0 holds the original MCUSR value and WDTCSR is zero; the
snapshot is the first statement of the sequence. -/
theorem reset_cause_captured_then_wdt_cleared :
    ∀ s : HwState,
      (startup s).gpior0 = s.mcusr
      ∧ (startup s).wdtcsr = 0
      ∧ (startup s).mcusr = 0
      ∧ startupTrace.head? = some StartupEv.captureReset := by
  intro s
  exact ⟨rfl, rfl, rfl, rfl⟩

/-- C9: the Device Cursor starts at the midpoint of flash, and in every
reachable state of `main` the cursor plus one page width stays at most
the boundary constant plus one; consequently every page erase the code
ever performs targets a page that ends at or below `APP_END`, inside
the application region. -/
theorem cursor_stays_in_app_region :
    (∀ input : List Nat, (initMState input).address = (FLASHEND + 1) / 2)
    ∧ (∀ (input : List Nat) (n : Nat),
        (run (initMState input) n).1.address + SPM_PAGESIZE ≤ APP_END + 1)
    ∧ (∀ (input : List Nat) (n : Nat) (a : Nat),
        Event.pageErase a ∈ (run (initMState input) n).2 →
          a + SPM_PAGESIZE ≤ APP_END + 1) := by
  have hinv : ∀ input : List Nat, addrInv (initMState input).address := by
    intro input
    show (FLASHEND + 1) / 2 + SPM_PAGESIZE ≤ APP_END + 1
    decide
  refine ⟨fun _ => rfl, ?_, ?_⟩
  · intro input n
    exact run_addrInv n _ (hinv input)
  · intro input n a ha
    exact run_erase_bound n _ (hinv input) a ha

theorem cursor_stays_in_app_region_w :
    (0x20000 : Nat) + SPM_PAGESIZE ≤ APP_END + 1 :=
  cursor_stays_in_app_region.2.2 [] 7 0x20000 (by
    have h7 : (run (initMState []) 7).2 = pageOpEvents ((FLASHEND + 1) / 2) ++ [] := rfl
    rw [h7, List.append_nil]
    unfold pageOpEvents
    have hm : ((FLASHEND + 1) / 2 : Nat) = 0x20000 := rfl
    rw [hm]
    exact List.mem_cons_self _ _)

/-- C10: in `ST_GET_DATA` the payload index `ii` is never changed by a
received byte; hence a frame whose declared 16-bit length is nonzero
never reaches `ST_PROCESS` — the collection loop ends with the timeout
flag, whatever bytes follow — while a declared length of zero reaches
processing after exactly one byte beyond the two length bytes (four
consumed bytes in all). -/
theorem data_state_never_advances :
    (∀ (m : PMachine) (c : Nat), m.st = PState.getData → (pstep m c).ii = m.ii)
    ∧ (∀ (len0 ii0 hi lo : Nat) (rest : List Nat),
        ((hi <<< 8) % 65536) ||| lo ≠ 0 →
          (collectAux { st := PState.start, msgLength := len0, ii := ii0 } 0
              (MESSAGE_START :: hi :: lo :: rest)).reachedProcess = false
          ∧ (collectAux { st := PState.start, msgLength := len0, ii := ii0 } 0
              (MESSAGE_START :: hi :: lo :: rest)).timedOut = true)
    ∧ (∀ (len0 ii0 b : Nat) (rest : List Nat),
        collectAux { st := PState.start, msgLength := len0, ii := ii0 } 0
            (MESSAGE_START :: 0 :: 0 :: b :: rest)
          = { timedOut := false, reachedProcess := true, remaining := rest,
              consumed := 4 }) := by
  refine ⟨?_, ?_, ?_⟩
  · intro m c h
    rcases m with ⟨st, len, idx⟩
    simp only at h
    subst h
    simp only [pstep]
    split <;> rfl
  · intro len0 ii0 hi lo rest h
    rw [collect_nonzero_len len0 ii0 hi lo rest h]
    exact ⟨rfl, rfl⟩
  · exact collect_zero_len

theorem data_state_never_advances_w :
    (collectAux { st := PState.start, msgLength := 0, ii := 0 } 0
        (MESSAGE_START :: 0 :: 1 :: [0xAA, 0xBB])).reachedProcess = false :=
  (data_state_never_advances.2.1 0 0 0 1 [0xAA, 0xBB] (by decide)).1

end Stk500Boot
